import Mathlib

/-!
Verification of the request-orchestration core of the `vscode-linter-xo`
language server (`src/server/server.ts`), as a shallow embedding in Lean.

Strings from the TypeScript side are modelled as `List Char` (JS string
indexing `s[i]` becomes `List.getD i`), the JS `Map` objects become
association lists over `String` keys, and promise-based handlers become
pure functions from the server state and the results of the external
collaborators (the linter, configuration discovery, fix computation) to an
explicit outcome value.
-/

/-- The length `i` of the longest common prefix of `string0` and `string1`,
computed exactly as the first `while` loop of
`handleDocumentFormattingRequest` in `src/server/server.ts` (lines 313-316):
advance `i` while `i < string0.length && i < string1.length &&
string0[i] === string1[i]`. -/
def diffPrefixLen (s0 s1 : List Char) (i : Nat) : Nat :=
  if i < s0.length ∧ i < s1.length ∧ s0.getD i ' ' = s1.getD i ' ' then
    diffPrefixLen s0 s1 (i + 1)
  else i
termination_by s0.length - i
decreasing_by omega

/-- The length `j` of the common suffix, computed exactly as the second
`while` loop of `handleDocumentFormattingRequest` (lines 319-326): advance `j`
while `i + j < string0.length && i + j < string1.length &&
string0[string0.length - j - 1] === string1[string1.length - j - 1]`, where
`i` is the common-prefix length already computed. -/
def diffSuffixLen (s0 s1 : List Char) (i j : Nat) : Nat :=
  if i + j < s0.length ∧ i + j < s1.length ∧
      s0.getD (s0.length - j - 1) ' ' = s1.getD (s1.length - j - 1) ' ' then
    diffSuffixLen s0 s1 i (j + 1)
  else j
termination_by s0.length - (i + j)
decreasing_by omega

/-- The replacement text of the single reconciling edit
(`string1.substring(i, string1.length - j)`, line 329 of
`src/server/server.ts`). -/
def diffNewText (s1 : List Char) (i j : Nat) : List Char :=
  (s1.take (s1.length - j)).drop i

/-- Applying the single edit produced by the formatting handler's diff to the
original text `s0`: the span `[i, s0.length - j)` of `s0` is replaced by
`diffNewText s1 i j`, with `i` and `j` the common prefix/suffix lengths the
two loops compute. -/
def applyDiffEdit (s0 s1 : List Char) : List Char :=
  let i := diffPrefixLen s0 s1 0
  let j := diffSuffixLen s0 s1 i 0
  s0.take i ++ diffNewText s1 i j ++ s0.drop (s0.length - j)

/-! ## Data model

LSP payloads and the linter collaborator's value types, as used by
`src/server/server.ts`. JS `Map` objects become association lists over
`String` keys. -/

/-- An LSP position (line and character of `Range`/`Position` in the protocol). -/
structure LspPosition where
  line : Nat
  character : Nat
deriving DecidableEq, Repr

/-- An LSP range. The protocol's field names are `start` and `end`; `end` is a
reserved word here, so the fields are `startPos`/`endPos`. -/
structure LspRange where
  startPos : LspPosition
  endPos : LspPosition
deriving DecidableEq, Repr

/-- An LSP text edit (range plus replacement text). -/
structure LspTextEdit where
  range : LspRange
  newText : String
deriving DecidableEq, Repr

/-- A diagnostic produced by the linter: range, message, rule identifier
(`code`) and severity. -/
structure Diagnostic where
  range : LspRange
  message : String
  code : String
  severity : Nat
deriving DecidableEq, Repr

/-- A cached fix for one diagnostic: a set of text edits (`XoFix` in the
server's types). -/
structure XoFix where
  edits : List LspTextEdit
deriving DecidableEq, Repr

/-- The result shape of `getDocumentFixes`: a set of text edits. -/
structure DocumentFixes where
  edits : List LspTextEdit
deriving DecidableEq, Repr

/-- The `format` block of the xo configuration (`config?.format?.enable`). -/
structure FormatOption where
  enable : Option Bool
deriving DecidableEq, Repr

/-- The xo configuration object: only the fields `server.ts` reads
(`format.enable` and `debounce`) are modelled; both are optional in JS. -/
structure XoConfig where
  format : Option FormatOption
  debounce : Option Int
deriving DecidableEq, Repr

/-- JS truthiness of `config?.format?.enable`: `false` when `format` is
absent, `enable` is absent, or `enable` is `false`. -/
def formatEnabled (c : XoConfig) : Bool :=
  (c.format.bind (·.enable)).getD false

/-- A synchronized text document mirror (`TextDocument`): URI, language id,
version and full text. -/
structure TextDoc where
  uri : String
  languageId : String
  version : Nat
  text : String
deriving DecidableEq, Repr

/-- `Map.get`: first binding of `key` in an association list. -/
def mapLookup {α : Type} : List (String × α) → String → Option α
  | [], _ => none
  | (k, v) :: rest, key => if k = key then some v else mapLookup rest key

/-- `Map.keys`: the keys of an association list. -/
def mapKeys {α : Type} (m : List (String × α)) : List String := m.map Prod.fst

/-- `TextDocuments.get(uri)`: the open document with this URI, if any. -/
def documentsGet (docs : List TextDoc) (uri : String) : Option TextDoc :=
  docs.find? (fun d => d.uri == uri)

/-- `LintServer.isDocumentOpen` (`src/server/server.ts` lines 179-181):
`Boolean(document?.uri && this.documents.get(document.uri))`. An empty URI is
falsy in JS. -/
def isDocumentOpen (docs : List TextDoc) (uri : String) : Bool :=
  (uri != "") && (documentsGet docs uri).isSome

/-- Scan of node's POSIX `path.dirname`: walk indices from `cs.length - 1`
down to `1`, skipping trailing slashes (`matchedSlash`), and return the index
of the last path separator, if any. `path.dirname` is the node standard
library (the server imports it at line 2); this models its POSIX variant. -/
def dirnameScan (cs : List Char) : Nat → Bool → Option Nat
  | 0, _ => none
  | i + 1, matchedSlash =>
    if cs.getD (i + 1) ' ' = '/' then
      if matchedSlash then dirnameScan cs i matchedSlash else some (i + 1)
    else dirnameScan cs i false

/-- Node's POSIX `path.dirname`, used by the close handler to map a document
URI to its folder key (`path.dirname(document.uri)`, line 424). -/
def dirname (s : String) : String :=
  let cs := s.data
  if cs.isEmpty then "."
  else
    let hasRoot := cs.headD ' ' = '/'
    match dirnameScan cs (cs.length - 1) true with
    | none => if hasRoot then "/" else "."
    | some e => if hasRoot ∧ e = 1 then "//" else ⟨cs.take e⟩

/-- The mutable state of `LintServer` that the modelled handlers touch: the
open-document mirror, the four caches (`foldersCache`, `xoCache`,
`configurationCache`, `documentFixes`), the current debounce interval, and a
generation counter standing for which debounced-function instance is
installed (`lintDocumentDebounced` is replaced when the interval changes). -/
structure ServerState where
  documents : List TextDoc
  foldersCache : List (String × String)
  xoCache : List (String × Nat)
  configurationCache : List (String × XoConfig)
  documentFixes : List (String × List (String × XoFix))
  currentDebounce : Int
  debounceGen : Nat
deriving DecidableEq, Repr

/-- The payload of a `textDocument/publishDiagnostics` push. -/
structure PublishDiagnosticsParams where
  uri : String
  diagnostics : List Diagnostic
deriving DecidableEq, Repr

/-- `handleDocumentsOnDidClose` (`src/server/server.ts` lines 422-439): build
the set of folders (`path.dirname(uri)`) of the documents that are still open
(the event's document has already been removed from `this.documents` when the
close event fires); for each key of `foldersCache` not in that set, delete it
from `foldersCache`, `xoCache` and `configurationCache`; finally publish an
empty diagnostics array for the closed document's URI. The handler never
touches `documentFixes`. -/
def handleDocumentsOnDidClose (s : ServerState) (eventDoc : TextDoc) :
    ServerState × PublishDiagnosticsParams :=
  let folders := s.documents.map (fun d => dirname d.uri)
  let stale := fun f => (mapKeys s.foldersCache).contains f && !(folders.contains f)
  ({ s with
      foldersCache := s.foldersCache.filter (fun p => folders.contains p.1),
      xoCache := s.xoCache.filter (fun p => !(stale p.1)),
      configurationCache := s.configurationCache.filter (fun p => !(stale p.1)) },
   { uri := eventDoc.uri, diagnostics := [] })

/-- A server state with one folder's caches populated, a cached fix for the
document being closed, and no document left open. -/
def c2State : ServerState :=
  { documents := []
    foldersCache := [("file:///proj", "file:///proj/package.json")]
    xoCache := [("file:///proj", 1)]
    configurationCache := [("file:///proj", { format := none, debounce := none })]
    documentFixes := [("file:///proj/a.js", [("0,0,0,0-rule", { edits := [] })])]
    currentDebounce := 0
    debounceGen := 0 }

/-- The document whose close triggers the handler in the `c2State` scenario. -/
def c2Doc : TextDoc :=
  { uri := "file:///proj/a.js", languageId := "javascript", version := 1, text := "" }

/-- A state holding an `xoCache` entry whose key is absent from
`foldersCache`, with no document open. -/
def c10State : ServerState :=
  { documents := []
    foldersCache := []
    xoCache := [("file:///other", 7)]
    configurationCache := []
    documentFixes := []
    currentDebounce := 0
    debounceGen := 0 }

/-- The closed document in the `c10State` scenario. -/
def c10Doc : TextDoc :=
  { uri := "file:///other/b.js", languageId := "javascript", version := 1, text := "" }

/-- A state with one open document and its folder cached, for the witness of
`close_handler_remaining_keys`. -/
def c10OpenState : ServerState :=
  { documents := [{ uri := "file:///p/a.js", languageId := "javascript", version := 1, text := "" }]
    foldersCache := [("file:///p", "file:///p/package.json")]
    xoCache := [("file:///p", 3)]
    configurationCache := []
    documentFixes := []
    currentDebounce := 0
    debounceGen := 0 }

/-- The closed document in the `c10OpenState` scenario. -/
def c10OpenDoc : TextDoc :=
  { uri := "file:///q/c.js", languageId := "javascript", version := 1, text := "" }

/-- The `settings.xo` payload of a `workspace/didChangeConfiguration`
notification; `none` models a missing `settings.xo` object. -/
structure XoSettings where
  xo : Option XoConfig
deriving DecidableEq, Repr

/-- `handleDidChangeConfiguration` (`src/server/server.ts` lines 207-221): if
`params.settings.xo.debounce` is an integer different from the current
debounce interval, install it and replace the debounced lint function
(modelled by bumping `debounceGen`); then clear `configurationCache` entirely
and re-lint all open documents. The returned list is the argument to
`lintDocuments` (the external lint pass). -/
def handleDidChangeConfiguration (s : ServerState) (params : Option XoSettings) :
    ServerState × List TextDoc :=
  let debounceOpt := (params.bind (·.xo)).bind (·.debounce)
  let s1 :=
    match debounceOpt with
    | some d =>
      if d ≠ s.currentDebounce then
        { s with currentDebounce := d, debounceGen := s.debounceGen + 1 }
      else s
    | none => s
  ({ s1 with configurationCache := [] }, s.documents)

/-- The body of the task queued by `handleDocumentsOnDidChangeContent`
(`src/server/server.ts` lines 405-415): when the task executes, if the event
document's version differs from the version currently tracked for that URI
(including when the URI is no longer tracked), it returns without doing
anything; otherwise it hands the event's document to the debounced lint. The
result is the document passed to `lintDocumentDebounced`, or `none` when the
notification is skipped. No error is raised on the skip path. -/
def handleDocumentsOnDidChangeContentTask (docs : List TextDoc) (event : TextDoc) :
    Option TextDoc :=
  match documentsGet docs event.uri with
  | some d => if event.version = d.version then some event else none
  | none => none

/-! ## Document formatting request -/

/-- The edits a formatting request resolves with: either the fix list's edits
verbatim, or the single reconciling replacement the diff produces, expressed
at character offsets (`positionAt` is an offset→position bijection of the
`vscode-languageserver-textdocument` library). -/
inductive FormatEdits
  | fixList (edits : List LspTextEdit)
  | singleReplace (startOff endOff : Nat) (newText : List Char)
deriving DecidableEq, Repr

/-- How the promise returned by `handleDocumentFormattingRequest` behaves:
`pending` when the queued task returns without calling `resolve` or `reject`
(the promise never settles), `resolved` when `resolve(edits)` runs,
`rejectedCancelled` when `reject(new ResponseError(RequestCancelled, ...))`
runs. -/
inductive FormatOutcome
  | pending
  | resolved (edits : FormatEdits)
  | rejectedCancelled
deriving DecidableEq, Repr

/-- The external collaborator calls the formatting task can make, in the order
the code reaches them. -/
inductive CollabCall
  | configCall
  | fixesCall
  | lintResultsCall
deriving DecidableEq, Repr

/-- The results the external collaborators would return to the formatting
task: the resolved configuration (`getDocumentConfig`), the cached/computed
fixes (`getDocumentFixes`), the text obtained by `TextDocument.applyEdits`
(a library function), and `report.results[0].output` from `getLintResults`. -/
structure FormatOracle where
  config : Option XoConfig
  fixes : Option DocumentFixes
  editedContent : List Char
  lintOutput : Option (List Char)
deriving DecidableEq, Repr

/-- The body of the task queued by `handleDocumentFormattingRequest`
(`src/server/server.ts` lines 261-345), with collaborator results supplied by
`o`. Faithful control flow: (1) if the document is not open, `return` without
settling; (2) if cancellation is already requested, reject with the
request-cancelled error; (3) re-read the document, resolving `[]` if absent;
(4) resolve `[]` if the configuration is absent or `config?.format?.enable` is
falsy; (5) resolve `[]` if `getDocumentFixes` returned nothing; (6) lint the
fix-applied text; if `results[0].output` is truthy (defined and non-empty) and
differs from the fix-applied text, resolve with the single prefix/suffix diff
edit against the original text, else resolve with the fix list verbatim. The
second component lists the collaborator calls made. -/
def handleDocumentFormattingRequestTask (docs : List TextDoc) (uri : String)
    (cancelled : Bool) (o : FormatOracle) : FormatOutcome × List CollabCall :=
  if !(isDocumentOpen docs uri) then (FormatOutcome.pending, [])
  else if cancelled then (FormatOutcome.rejectedCancelled, [])
  else
    match documentsGet docs uri with
    | none => (FormatOutcome.resolved (FormatEdits.fixList []), [])
    | some cachedTextDocument =>
      match o.config with
      | none => (FormatOutcome.resolved (FormatEdits.fixList []), [CollabCall.configCall])
      | some config =>
        if !(formatEnabled config) then
          (FormatOutcome.resolved (FormatEdits.fixList []), [CollabCall.configCall])
        else
          match o.fixes with
          | none =>
            (FormatOutcome.resolved (FormatEdits.fixList []),
             [CollabCall.configCall, CollabCall.fixesCall])
          | some fixes =>
            let originalText := cachedTextDocument.text.data
            let calls :=
              [CollabCall.configCall, CollabCall.fixesCall, CollabCall.lintResultsCall]
            match o.lintOutput with
            | some output =>
              if output ≠ [] ∧ output ≠ o.editedContent then
                let i := diffPrefixLen originalText output 0
                let j := diffSuffixLen originalText output i 0
                (FormatOutcome.resolved
                  (FormatEdits.singleReplace i (originalText.length - j)
                    (diffNewText output i j)),
                 calls)
              else (FormatOutcome.resolved (FormatEdits.fixList fixes.edits), calls)
            | none => (FormatOutcome.resolved (FormatEdits.fixList fixes.edits), calls)

/-- The oracle used by the concrete formatting scenarios: no configuration, no
fixes. -/
def fmtOracle0 : FormatOracle :=
  { config := none, fixes := none, editedContent := [], lintOutput := none }

/-! ## Code action request -/

/-- Modelled from the spec: `utils.computeKey` (`src/server/utils.ts` is not
in the source tree). Per the spec (§3), the fix key is a deterministic key
derived from the diagnostic's identifying fields — rule identifier and range,
not its message text. -/
def computeKey (d : Diagnostic) : String :=
  toString d.range.startPos.line ++ "," ++ toString d.range.startPos.character ++ "," ++
    toString d.range.endPos.line ++ "," ++ toString d.range.endPos.character ++ "-" ++ d.code

/-- One code action offered to the editor. -/
structure CodeActionItem where
  diagnostic : Diagnostic
  edit : XoFix
  documentUri : String
deriving DecidableEq, Repr

/-- Modelled from the spec: `CodeActionsBuilder` (`src/server/code-actions-builder.ts`
is not in the source tree). Per the spec (§4.5), when a cached fix exists for
the diagnostic's key the handler builds one code action exposing that fix. -/
def buildCodeActions (d : Diagnostic) (edit : XoFix) (doc : TextDoc) : List CodeActionItem :=
  [{ diagnostic := d, edit := edit, documentUri := doc.uri }]

/-- The parameters of a `textDocument/codeAction` request the handler reads:
`context.diagnostics` and `textDocument.uri`. -/
structure CodeActionParams where
  diagnostics : List Diagnostic
  uri : String
deriving DecidableEq, Repr

/-- How the promise returned by `handleCodeActionRequest` settles. -/
inductive CodeActionOutcome
  | resolvedActions (actions : List CodeActionItem)
  | rejectedCancelled
deriving DecidableEq, Repr

/-- The body of the task queued by `handleCodeActionRequest`
(`src/server/server.ts` lines 357-397): resolve `[]` when the context carries
no diagnostics or the request has no document URI; reject when cancellation
is already requested; otherwise destructure the FIRST diagnostic, look the
document's fix map up, and — via JS optional chaining, only when that map
exists — look up the fix under the first diagnostic's key; resolve with the
built actions when both the fix and the document exist, else resolve `[]`.
The second component records the fix keys looked up (empty when the optional
chain short-circuits). -/
def handleCodeActionRequestTask (s : ServerState) (params : CodeActionParams)
    (cancelled : Bool) : CodeActionOutcome × List String :=
  match params.diagnostics with
  | [] => (CodeActionOutcome.resolvedActions [], [])
  | diagnostic :: _ =>
    if params.uri = "" then (CodeActionOutcome.resolvedActions [], [])
    else if cancelled then (CodeActionOutcome.rejectedCancelled, [])
    else
      match mapLookup s.documentFixes params.uri with
      | none => (CodeActionOutcome.resolvedActions [], [])
      | some documentEdits =>
        let key := computeKey diagnostic
        match mapLookup documentEdits key, documentsGet s.documents params.uri with
        | some edit, some textDocument =>
          (CodeActionOutcome.resolvedActions (buildCodeActions diagnostic edit textDocument),
           [key])
        | some _, none => (CodeActionOutcome.resolvedActions [], [key])
        | none, _ => (CodeActionOutcome.resolvedActions [], [key])

/-- A diagnostic used by the concrete code-action scenarios. -/
def c9Diag : Diagnostic :=
  { range := { startPos := { line := 0, character := 0 }
               endPos := { line := 0, character := 4 } }
    message := "msg", code := "semi", severity := 1 }

/-- A server state with a cached fix for `c9Diag` on an open document. -/
def c9State : ServerState :=
  { documents := [{ uri := "file:///p/a.js", languageId := "javascript", version := 1,
                    text := "x" }]
    foldersCache := []
    xoCache := []
    configurationCache := []
    documentFixes := [("file:///p/a.js", [("0,0,0,4-semi", { edits := [] })])]
    currentDebounce := 0
    debounceGen := 0 }

/-! ## Request queue -/

/-- An observable event of the request queue: task `k` starting, or task `k`
settling (`ok = true` for resolve, `false` for reject). -/
inductive QueueEvent
  | taskStart (k : Nat)
  | taskSettle (k : Nat) (ok : Bool)
deriving DecidableEq, Repr

/-- Modelled from the spec: the request queue
(`this.queue = new Queue({concurrency: 1, autostart: true})`,
`src/server/server.ts` line 113) is the npm `queue` package, whose code is not
part of this repository. Per the spec (§4.1, §5) it is a strict FIFO runner
with concurrency 1: pushed tasks start in submission order, each runs to
settlement before the next starts, and a rejected task's failure affects only
its own caller. `runQueue tasks k` is the event trace of running the tasks
whose settlement outcomes are `tasks` (`true` = resolve, `false` = reject),
numbering them from `k`. -/
def runQueue : List Bool → Nat → List QueueEvent
  | [], _ => []
  | t :: rest, k =>
    QueueEvent.taskStart k :: QueueEvent.taskSettle k t :: runQueue rest (k + 1)

/-! ## Theorems -/

/-- The prefix loop never moves `i` past the end of either string. -/
theorem diffPrefixLen_le_length (s0 s1 : List Char) (i : Nat) (h0 : i ≤ s0.length)
    (h1 : i ≤ s1.length) :
    diffPrefixLen s0 s1 i ≤ s0.length ∧ diffPrefixLen s0 s1 i ≤ s1.length := by
  induction i using diffPrefixLen.induct s0 s1 with
  | case1 i h ih => rw [diffPrefixLen, if_pos h]; exact ih (by omega) (by omega)
  | case2 i h => rw [diffPrefixLen, if_neg h]; exact ⟨h0, h1⟩

/-- Every position the prefix loop walked over holds the same character in
both strings. -/
theorem diffPrefixLen_agree (s0 s1 : List Char) (i : Nat) :
    ∀ k, i ≤ k → k < diffPrefixLen s0 s1 i → s0.getD k ' ' = s1.getD k ' ' := by
  induction i using diffPrefixLen.induct s0 s1 with
  | case1 i h ih =>
    intro k hik hk
    rw [diffPrefixLen, if_pos h] at hk
    rcases Nat.eq_or_lt_of_le hik with rfl | hlt
    · exact h.2.2
    · exact ih k hlt hk
  | case2 i h =>
    intro k hik hk
    rw [diffPrefixLen, if_neg h] at hk
    omega

/-- The suffix loop keeps `i + j` within both strings' lengths. -/
theorem diffSuffixLen_le_length (s0 s1 : List Char) (i j : Nat) (h0 : i + j ≤ s0.length)
    (h1 : i + j ≤ s1.length) :
    i + diffSuffixLen s0 s1 i j ≤ s0.length ∧ i + diffSuffixLen s0 s1 i j ≤ s1.length := by
  induction j using diffSuffixLen.induct s0 s1 i with
  | case1 j h ih => rw [diffSuffixLen, if_pos h]; exact ih (by omega) (by omega)
  | case2 j h => rw [diffSuffixLen, if_neg h]; exact ⟨h0, h1⟩

/-- Every position the suffix loop walked over (counting from the back) holds
the same character in both strings. -/
theorem diffSuffixLen_agree (s0 s1 : List Char) (i j : Nat) :
    ∀ k, j ≤ k → k < diffSuffixLen s0 s1 i j →
      s0.getD (s0.length - k - 1) ' ' = s1.getD (s1.length - k - 1) ' ' := by
  induction j using diffSuffixLen.induct s0 s1 i with
  | case1 j h ih =>
    intro k hjk hk
    rw [diffSuffixLen, if_pos h] at hk
    rcases Nat.eq_or_lt_of_le hjk with rfl | hlt
    · exact h.2.2
    · exact ih k hlt hk
  | case2 j h =>
    intro k hjk hk
    rw [diffSuffixLen, if_neg h] at hk
    omega

/-- The two strings agree on the common prefix the first loop found. -/
theorem diff_take_eq (s0 s1 : List Char) :
    s0.take (diffPrefixLen s0 s1 0) = s1.take (diffPrefixLen s0 s1 0) := by
  obtain ⟨h0, h1⟩ := diffPrefixLen_le_length s0 s1 0 (by omega) (by omega)
  apply List.ext_getElem
  · simp; omega
  · intro k hk0 hk1
    simp only [List.getElem_take]
    simp only [List.length_take, lt_inf_iff] at hk0 hk1
    have b0 : k < s0.length := hk0.2
    have b1 : k < s1.length := hk1.2
    rw [← List.getD_eq_getElem s0 ' ' b0, ← List.getD_eq_getElem s1 ' ' b1]
    exact diffPrefixLen_agree s0 s1 0 k (Nat.zero_le k) hk0.1

/-- Two strings agreeing character-by-character on their last `j` positions
have equal `j`-suffixes. -/
theorem diff_drop_eq (s0 s1 : List Char) (j : Nat) (h0 : j ≤ s0.length) (h1 : j ≤ s1.length)
    (hagree : ∀ k, k < j → s0.getD (s0.length - k - 1) ' ' = s1.getD (s1.length - k - 1) ' ') :
    s0.drop (s0.length - j) = s1.drop (s1.length - j) := by
  apply List.ext_getElem
  · simp; omega
  · intro m hm0 hm1
    simp only [List.getElem_drop]
    simp only [List.length_drop] at hm0 hm1
    have hmj : m < j := by omega
    have b0 : s0.length - j + m < s0.length := by omega
    have b1 : s1.length - j + m < s1.length := by omega
    rw [← List.getD_eq_getElem s0 ' ' b0, ← List.getD_eq_getElem s1 ' ' b1]
    have := hagree (j - 1 - m) (by omega)
    rw [show s0.length - (j - 1 - m) - 1 = s0.length - j + m from by omega,
        show s1.length - (j - 1 - m) - 1 = s1.length - j + m from by omega] at this
    exact this

/-- C1: for every pair of strings `s0` (the document's original text) and `s1`
(the linter's authoritative fixed output), applying the single edit computed by
the formatting handler's prefix/suffix diff — replace the span
`[i, s0.length - j)` of `s0` with `s1.substring(i, s1.length - j)` — to `s0`
yields exactly `s1`. -/
theorem diff_edit_round_trip (s0 s1 : List Char) : applyDiffEdit s0 s1 = s1 := by
  unfold applyDiffEdit diffNewText
  dsimp only
  set i := diffPrefixLen s0 s1 0 with hidef
  set j := diffSuffixLen s0 s1 i 0 with hjdef
  obtain ⟨hi0, hi1⟩ := diffPrefixLen_le_length s0 s1 0 (by omega) (by omega)
  rw [← hidef] at hi0 hi1
  obtain ⟨hij0, hij1⟩ := diffSuffixLen_le_length s0 s1 i 0 (by omega) (by omega)
  rw [← hjdef] at hij0 hij1
  have htake : s0.take i = s1.take i := diff_take_eq s0 s1
  have hdrop : s0.drop (s0.length - j) = s1.drop (s1.length - j) :=
    diff_drop_eq s0 s1 j (by omega) (by omega)
      (fun k hk => diffSuffixLen_agree s0 s1 i 0 k (Nat.zero_le k) hk)
  rw [htake, hdrop]
  have h1 : s1.take i = (s1.take (s1.length - j)).take i := by
    rw [List.take_take, min_eq_left (by omega)]
  rw [h1, List.take_append_drop, List.take_append_drop]

/-- C8: for every server state and every closed document, the close handler
publishes an empty diagnostics array for that document's URI, regardless of
previous diagnostics and of the folder caches' contents. -/
theorem close_publishes_empty_diagnostics (s : ServerState) (eventDoc : TextDoc) :
    (handleDocumentsOnDidClose s eventDoc).2 =
      { uri := eventDoc.uri, diagnostics := [] } := rfl

/-- C2 counterexample: closing `file:///proj/a.js` garbage-collects the folder
caches, but the document's own entry in `documentFixes` is still present
afterwards — the close handler never touches `documentFixes`, contradicting
the claim that it deletes that document's fix-map entry. -/
theorem close_does_not_delete_document_fixes :
    mapLookup (handleDocumentsOnDidClose c2State c2Doc).1.documentFixes c2Doc.uri =
      some [("0,0,0,0-rule", { edits := [] })] ∧
    (handleDocumentsOnDidClose c2State c2Doc).1.documentFixes = c2State.documentFixes := by
  decide

/-- C2 (amended): the close handler leaves `documentFixes` unchanged (in
particular it does not delete the closed document's entry), and for every key
of `foldersCache` that is not the folder (`path.dirname`) of any still-open
document, all three folder cache entries — root marker, linter module,
configuration — are deleted. -/
theorem close_handler_gc (s : ServerState) (ev : TextDoc) :
    ((handleDocumentsOnDidClose s ev).1.documentFixes = s.documentFixes) ∧
    (∀ f, f ∈ mapKeys s.foldersCache →
      f ∉ s.documents.map (fun d => dirname d.uri) →
      (f ∉ mapKeys (handleDocumentsOnDidClose s ev).1.foldersCache ∧
       f ∉ mapKeys (handleDocumentsOnDidClose s ev).1.xoCache ∧
       f ∉ mapKeys (handleDocumentsOnDidClose s ev).1.configurationCache)) := by
  constructor
  · rfl
  · intro f hin hout
    refine ⟨?_, ?_, ?_⟩
    · simp only [handleDocumentsOnDidClose, mapKeys, List.mem_map, List.mem_filter] at *
      rintro ⟨p, ⟨hp, hcont⟩, rfl⟩
      exact hout (by simpa using hcont)
    · simp only [handleDocumentsOnDidClose, mapKeys, List.mem_map, List.mem_filter] at *
      rintro ⟨p, ⟨hp, hcond⟩, rfl⟩
      simp at hcond
      rcases hcond with h1 | h2
      · obtain ⟨⟨x1, x2⟩, hx, hxeq⟩ := hin
        subst hxeq
        exact h1 x2 hx
      · exact hout (by simpa using h2)
    · simp only [handleDocumentsOnDidClose, mapKeys, List.mem_map, List.mem_filter] at *
      rintro ⟨p, ⟨hp, hcond⟩, rfl⟩
      simp at hcond
      rcases hcond with h1 | h2
      · obtain ⟨⟨x1, x2⟩, hx, hxeq⟩ := hin
        subst hxeq
        exact h1 x2 hx
      · exact hout (by simpa using h2)

/-- Witness for `close_handler_gc`: in the concrete `c2State` scenario the
folder `file:///proj` has no remaining open document, so its three cache
entries are gone while `documentFixes` is untouched. -/
theorem close_handler_gc_witness :
    (handleDocumentsOnDidClose c2State c2Doc).1.documentFixes = c2State.documentFixes ∧
    "file:///proj" ∉ mapKeys (handleDocumentsOnDidClose c2State c2Doc).1.foldersCache ∧
    "file:///proj" ∉ mapKeys (handleDocumentsOnDidClose c2State c2Doc).1.xoCache ∧
    "file:///proj" ∉ mapKeys (handleDocumentsOnDidClose c2State c2Doc).1.configurationCache := by
  have h := close_handler_gc c2State c2Doc
  have h2 := h.2 "file:///proj" (by decide) (by decide)
  exact ⟨h.1, h2.1, h2.2.1, h2.2.2⟩

/-- C10 counterexample: the close handler only iterates the keys of
`foldersCache`, so an `xoCache` entry whose key is not in `foldersCache`
survives the close even though no document remains open — the three caches are
not all empty, contradicting the claimed invariant. -/
theorem close_leaves_unlisted_xo_cache_key :
    (handleDocumentsOnDidClose c10State c10Doc).1.xoCache = [("file:///other", 7)] ∧
    (handleDocumentsOnDidClose c10State c10Doc).1.documents = [] := by
  decide

/-- C10 (amended): after the close handler, every key remaining in
`foldersCache` is the folder (`path.dirname`) of some still-open document's
URI; a key remaining in `xoCache` or `configurationCache` is either such a
folder or was absent from `foldersCache` before the close (only keys listed in
`foldersCache` are evicted from the other two caches). -/
theorem close_handler_remaining_keys (s : ServerState) (ev : TextDoc) :
    (∀ f ∈ mapKeys (handleDocumentsOnDidClose s ev).1.foldersCache,
       f ∈ s.documents.map (fun d => dirname d.uri)) ∧
    (∀ f ∈ mapKeys (handleDocumentsOnDidClose s ev).1.xoCache,
       f ∈ s.documents.map (fun d => dirname d.uri) ∨ f ∉ mapKeys s.foldersCache) ∧
    (∀ f ∈ mapKeys (handleDocumentsOnDidClose s ev).1.configurationCache,
       f ∈ s.documents.map (fun d => dirname d.uri) ∨ f ∉ mapKeys s.foldersCache) := by
  refine ⟨?_, ?_, ?_⟩
  · intro f hf
    simp only [handleDocumentsOnDidClose, mapKeys, List.mem_map, List.mem_filter] at hf
    obtain ⟨p, ⟨hp, hcont⟩, rfl⟩ := hf
    simpa using hcont
  · intro f hf
    simp only [handleDocumentsOnDidClose, mapKeys, List.mem_map, List.mem_filter] at hf
    obtain ⟨p, ⟨hp, hcond⟩, rfl⟩ := hf
    simp at hcond
    by_cases hmem : p.1 ∈ mapKeys s.foldersCache
    · left
      rcases hcond with h1 | h2
      · exfalso
        simp only [mapKeys, List.mem_map] at hmem
        obtain ⟨⟨x1, x2⟩, hx, hxeq⟩ := hmem
        subst hxeq
        exact h1 x2 hx
      · simpa using h2
    · right; exact hmem
  · intro f hf
    simp only [handleDocumentsOnDidClose, mapKeys, List.mem_map, List.mem_filter] at hf
    obtain ⟨p, ⟨hp, hcond⟩, rfl⟩ := hf
    simp at hcond
    by_cases hmem : p.1 ∈ mapKeys s.foldersCache
    · left
      rcases hcond with h1 | h2
      · exfalso
        simp only [mapKeys, List.mem_map] at hmem
        obtain ⟨⟨x1, x2⟩, hx, hxeq⟩ := hmem
        subst hxeq
        exact h1 x2 hx
      · simpa using h2
    · right; exact hmem

/-- Witness for `close_handler_remaining_keys`: with `file:///p/a.js` still
open, the surviving `foldersCache` key `file:///p` is indeed that document's
folder, and the surviving `xoCache` key is accounted for as well. -/
theorem close_handler_remaining_keys_witness :
    "file:///p" ∈ c10OpenState.documents.map (fun d => dirname d.uri) ∧
    ("file:///p" ∈ c10OpenState.documents.map (fun d => dirname d.uri) ∨
      "file:///p" ∉ mapKeys c10OpenState.foldersCache) := by
  have h := close_handler_remaining_keys c10OpenState c10OpenDoc
  exact ⟨h.1 "file:///p" (by decide), h.2.1 "file:///p" (by decide)⟩

/-- C4: a configuration-changed notification clears the folder→configuration
cache entirely, leaves `xoCache`, `foldersCache` and `documentFixes`
unchanged, and re-lints exactly the open documents. -/
theorem config_change_clears_only_configuration_cache (s : ServerState)
    (params : Option XoSettings) :
    (handleDidChangeConfiguration s params).1.configurationCache = [] ∧
    (handleDidChangeConfiguration s params).1.xoCache = s.xoCache ∧
    (handleDidChangeConfiguration s params).1.foldersCache = s.foldersCache ∧
    (handleDidChangeConfiguration s params).1.documentFixes = s.documentFixes ∧
    (handleDidChangeConfiguration s params).2 = s.documents := by
  unfold handleDidChangeConfiguration
  rcases (params.bind (·.xo)).bind (·.debounce) with _ | d
  · simp
  · dsimp only
    split <;> simp

/-- C5: a change notification whose document version is not the currently
tracked version for that URI at the time the queued task executes produces no
lint invocation (and no error — the skip path merely returns). -/
theorem stale_change_produces_no_lint (docs : List TextDoc) (event : TextDoc)
    (h : (documentsGet docs event.uri).map (fun d => d.version) ≠ some event.version) :
    handleDocumentsOnDidChangeContentTask docs event = none := by
  unfold handleDocumentsOnDidChangeContentTask
  rcases hd : documentsGet docs event.uri with _ | d
  · rfl
  · have hne : event.version ≠ d.version := by
      intro he
      apply h
      rw [hd, he]
      rfl
    show (if event.version = d.version then some event else none) = none
    rw [if_neg hne]

/-- Witness for `stale_change_produces_no_lint`: a change event carrying
version 1 while version 2 is tracked for the same URI is silently skipped. -/
theorem stale_change_produces_no_lint_witness :
    handleDocumentsOnDidChangeContentTask
      [{ uri := "file:///p/a.js", languageId := "javascript", version := 2, text := "b" }]
      { uri := "file:///p/a.js", languageId := "javascript", version := 1, text := "a" } =
      none := by
  exact stale_change_produces_no_lint _ _ (by decide)

/-- C3 counterexample: a formatting request for a document that is not open
leaves the promise pending — the queued task returns without calling
`resolve`, so the promise does not resolve with an empty edit list as the
claim states. -/
theorem format_request_not_open_never_settles :
    (handleDocumentFormattingRequestTask [] "file:///a.js" false fmtOracle0).1 =
      FormatOutcome.pending ∧
    FormatOutcome.pending ≠ FormatOutcome.resolved (FormatEdits.fixList []) := by
  decide

/-- C3 (amended): the formatting task's precondition behavior is: if the
document is not open, the task returns without settling the promise (it stays
pending forever); if the document is open but cancellation was already
requested when the task starts, the promise rejects with the
request-cancelled error; if the document is open, cancellation is not
requested, and the configuration is absent or has format-on-save disabled,
the promise resolves with an empty edit list. -/
theorem format_request_preconditions (docs : List TextDoc) (uri : String)
    (cancelled : Bool) (o : FormatOracle) :
    (isDocumentOpen docs uri = false →
      (handleDocumentFormattingRequestTask docs uri cancelled o).1 = FormatOutcome.pending) ∧
    (isDocumentOpen docs uri = true → cancelled = true →
      (handleDocumentFormattingRequestTask docs uri cancelled o).1 =
        FormatOutcome.rejectedCancelled) ∧
    (isDocumentOpen docs uri = true → cancelled = false →
      (o.config = none ∨ ∃ c, o.config = some c ∧ formatEnabled c = false) →
      (handleDocumentFormattingRequestTask docs uri cancelled o).1 =
        FormatOutcome.resolved (FormatEdits.fixList [])) := by
  refine ⟨?_, ?_, ?_⟩
  · intro hclosed
    unfold handleDocumentFormattingRequestTask
    rw [hclosed]
    rfl
  · intro hopen hcanc
    unfold handleDocumentFormattingRequestTask
    rw [hopen, hcanc]
    rfl
  · intro hopen hcanc hconf
    unfold handleDocumentFormattingRequestTask
    rw [hopen, hcanc]
    have hsome : (documentsGet docs uri).isSome := by
      unfold isDocumentOpen at hopen
      exact (Bool.and_eq_true_iff.mp hopen).2
    rcases hdoc : documentsGet docs uri with _ | d
    · rw [hdoc] at hsome; cases hsome
    · rcases hconf with hnone | ⟨c, hc, hdis⟩
      · rw [hnone]
        rfl
      · rw [hc]
        simp only [hdis]
        rfl

/-- Witness for `format_request_preconditions`: a request against an open
document with cancellation already requested rejects with the
request-cancelled error. -/
theorem format_request_preconditions_witness :
    (handleDocumentFormattingRequestTask
      [{ uri := "file:///p/a.js", languageId := "javascript", version := 1, text := "x" }]
      "file:///p/a.js" true fmtOracle0).1 = FormatOutcome.rejectedCancelled := by
  exact (format_request_preconditions
    [{ uri := "file:///p/a.js", languageId := "javascript", version := 1, text := "x" }]
    "file:///p/a.js" true fmtOracle0).2.1 (by decide) rfl

/-- C6: a formatting request against an open document whose resolved
configuration has format-on-save disabled resolves with an empty edit list
and never reaches the fix pipeline: neither `getDocumentFixes` nor
`getLintResults` is called. -/
theorem format_disabled_skips_fix_pipeline (docs : List TextDoc) (uri : String)
    (o : FormatOracle) (c : XoConfig)
    (hopen : isDocumentOpen docs uri = true)
    (hconf : o.config = some c) (hdis : formatEnabled c = false) :
    (handleDocumentFormattingRequestTask docs uri false o).1 =
      FormatOutcome.resolved (FormatEdits.fixList []) ∧
    CollabCall.fixesCall ∉ (handleDocumentFormattingRequestTask docs uri false o).2 ∧
    CollabCall.lintResultsCall ∉ (handleDocumentFormattingRequestTask docs uri false o).2 := by
  have hsome : (documentsGet docs uri).isSome := by
    unfold isDocumentOpen at hopen
    exact (Bool.and_eq_true_iff.mp hopen).2
  unfold handleDocumentFormattingRequestTask
  rw [hopen]
  rcases hdoc : documentsGet docs uri with _ | d
  · rw [hdoc] at hsome; cases hsome
  · rw [hconf]
    simp only [hdis]
    refine ⟨rfl, ?_, ?_⟩
    · show CollabCall.fixesCall ∉ [CollabCall.configCall]
      decide
    · show CollabCall.lintResultsCall ∉ [CollabCall.configCall]
      decide

/-- Witness for `format_disabled_skips_fix_pipeline`: a concrete open document
with a configuration whose `format.enable` is `false`. -/
theorem format_disabled_skips_fix_pipeline_witness :
    (handleDocumentFormattingRequestTask
      [{ uri := "file:///p/a.js", languageId := "javascript", version := 1, text := "x" }]
      "file:///p/a.js" false
      { config := some { format := some { enable := some false }, debounce := none }
        fixes := some { edits := [] }, editedContent := [], lintOutput := none }).1 =
      FormatOutcome.resolved (FormatEdits.fixList []) ∧
    CollabCall.fixesCall ∉
      (handleDocumentFormattingRequestTask
        [{ uri := "file:///p/a.js", languageId := "javascript", version := 1, text := "x" }]
        "file:///p/a.js" false
        { config := some { format := some { enable := some false }, debounce := none }
          fixes := some { edits := [] }, editedContent := [], lintOutput := none }).2 ∧
    CollabCall.lintResultsCall ∉
      (handleDocumentFormattingRequestTask
        [{ uri := "file:///p/a.js", languageId := "javascript", version := 1, text := "x" }]
        "file:///p/a.js" false
        { config := some { format := some { enable := some false }, debounce := none }
          fixes := some { edits := [] }, editedContent := [], lintOutput := none }).2 := by
  exact format_disabled_skips_fix_pipeline _ _ _ _ (by decide) rfl rfl

/-- C9 counterexample: a code-action request that carries a diagnostic but
whose cancellation is already requested performs zero fix-key lookups (and
rejects), so "exactly one fix-key lookup is performed" fails as stated for
requests with one or more diagnostics. -/
theorem code_action_cancelled_makes_no_lookup :
    (handleCodeActionRequestTask c9State { diagnostics := [c9Diag], uri := "file:///p/a.js" }
        true).2 = [] ∧
    (handleCodeActionRequestTask c9State { diagnostics := [c9Diag], uri := "file:///p/a.js" }
        true).1 = CodeActionOutcome.rejectedCancelled ∧
    ([] : List String) ≠ [computeKey c9Diag] := by
  refine ⟨rfl, rfl, by decide⟩

/-- C9 (amended): the code-action response is derived solely from the first
diagnostic: (a) replacing the remaining diagnostics changes nothing; (b) any
actions resolved wrap exactly the first diagnostic and its cached fix under
`computeKey`; and (c) provided the request has a document URI, cancellation is
not requested, and a fix map exists for the document, exactly one fix-key
lookup is performed, with the first diagnostic's key. -/
theorem code_action_uses_only_first_diagnostic (s : ServerState) (d : Diagnostic)
    (tail tail' : List Diagnostic) (uri : String) (cancelled : Bool) :
    (handleCodeActionRequestTask s { diagnostics := d :: tail, uri := uri } cancelled =
      handleCodeActionRequestTask s { diagnostics := d :: tail', uri := uri } cancelled) ∧
    (∀ acts, (handleCodeActionRequestTask s { diagnostics := d :: tail, uri := uri }
        cancelled).1 = CodeActionOutcome.resolvedActions acts →
      ∀ a ∈ acts, a.diagnostic = d ∧
        ∃ m, mapLookup s.documentFixes uri = some m ∧
          mapLookup m (computeKey d) = some a.edit) ∧
    (uri ≠ "" → cancelled = false →
      ∀ m, mapLookup s.documentFixes uri = some m →
        (handleCodeActionRequestTask s { diagnostics := d :: tail, uri := uri }
          cancelled).2 = [computeKey d]) := by
  refine ⟨rfl, ?_, ?_⟩
  · intro acts hacts a ha
    unfold handleCodeActionRequestTask at hacts
    dsimp only at hacts
    split at hacts
    · cases hacts
      cases ha
    · split at hacts
      · cases hacts
      · split at hacts
        · cases hacts
          cases ha
        · rename_i m hm
          split at hacts
          · rename_i edit td he hdoc
            cases hacts
            simp only [buildCodeActions, List.mem_singleton] at ha
            subst ha
            exact ⟨rfl, m, hm, he⟩
          · cases hacts
            cases ha
          · cases hacts
            cases ha
  · intro hu hc m hm
    subst hc
    unfold handleCodeActionRequestTask
    dsimp only
    rw [if_neg hu, if_neg Bool.false_ne_true, hm]
    dsimp only
    split <;> rfl

/-- Witness for `code_action_uses_only_first_diagnostic`: in the concrete
`c9State`, a non-cancelled request with a present fix map performs exactly the
one lookup under the first diagnostic's key. -/
theorem code_action_uses_only_first_diagnostic_witness :
    (handleCodeActionRequestTask c9State { diagnostics := [c9Diag], uri := "file:///p/a.js" }
        false).2 = [computeKey c9Diag] := by
  exact (code_action_uses_only_first_diagnostic c9State c9Diag [] [] "file:///p/a.js"
    false).2.2 (by decide) rfl [("0,0,0,4-semi", { edits := [] })] (by decide)

/-- Trace positions: in the trace starting at number `k0`, the `k`-th task's
start event sits at index `2k` and its settle event at index `2k + 1`. -/
theorem runQueue_events (tasks : List Bool) (k0 k : Nat) (hk : k < tasks.length) :
    (runQueue tasks k0)[2 * k]? = some (QueueEvent.taskStart (k0 + k)) ∧
    (runQueue tasks k0)[2 * k + 1]? =
      some (QueueEvent.taskSettle (k0 + k) (tasks.getD k true)) := by
  induction tasks generalizing k0 k with
  | nil => cases hk
  | cons t rest ih =>
    cases k with
    | zero => simp [runQueue]
    | succ k' =>
      have hk' : k' < rest.length := by simpa using hk
      have := ih (k0 + 1) k' hk'
      have e2 : 2 * (k' + 1) = 2 * k' + 1 + 1 := by omega
      rw [e2]
      simp only [runQueue, List.getElem?_cons_succ]
      rw [show k0 + (k' + 1) = k0 + 1 + k' from by omega]
      simpa using this

/-- C7: in the trace of any task list, task `k`'s settle event (index
`2k + 1`) precedes task `k + 1`'s start event (index `2k + 2`) — task `k`
fully settles before task `k + 1` begins — and every task's start event is in
the trace whatever the earlier tasks' outcomes, so a rejected task does not
prevent subsequent tasks from running. -/
theorem queue_fifo_order (tasks : List Bool) :
    (∀ k, k + 1 < tasks.length →
      (runQueue tasks 0)[2 * k + 1]? =
        some (QueueEvent.taskSettle k (tasks.getD k true)) ∧
      (runQueue tasks 0)[2 * k + 2]? = some (QueueEvent.taskStart (k + 1)) ∧
      2 * k + 1 < 2 * k + 2) ∧
    (∀ k, k < tasks.length → QueueEvent.taskStart k ∈ runQueue tasks 0) := by
  constructor
  · intro k hk
    have h1 := runQueue_events tasks 0 k (by omega)
    have h2 := runQueue_events tasks 0 (k + 1) hk
    refine ⟨by simpa using h1.2, ?_, by omega⟩
    rw [show 2 * k + 2 = 2 * (k + 1) from by omega]
    simpa using h2.1
  · intro k hk
    have h := (runQueue_events tasks 0 k hk).1
    simp only [Nat.zero_add] at h
    obtain ⟨hlt, heq⟩ := List.getElem?_eq_some.mp h
    exact heq ▸ List.getElem_mem hlt

/-- Witness for `queue_fifo_order`: with two tasks of which the first rejects,
the first task's settle event still precedes the second task's start event,
and the second task still starts. -/
theorem queue_fifo_order_witness :
    (runQueue [false, true] 0)[1]? = some (QueueEvent.taskSettle 0 false) ∧
    (runQueue [false, true] 0)[2]? = some (QueueEvent.taskStart 1) ∧
    QueueEvent.taskStart 1 ∈ runQueue [false, true] 0 := by
  have h := (queue_fifo_order [false, true]).1 0 (by decide)
  exact ⟨h.1, h.2.1, (queue_fifo_order [false, true]).2 1 (by decide)⟩
